import Mathlib

/-!
Shallow embedding of the simulation path of pimlicolabs/revm-proxy
(src/rpc.rs: the estimate_gas and call handlers and the library
operations they invoke).

Modelling conventions:
* 160-bit addresses, 256-bit words and 64-bit gas quantities are Nat
  (clamping at 2^64 is made explicit where the source performs a
  fallible u64 conversion);
* byte strings are List Nat;
* the remote node behind the SharedBackend is a record of pure
  functions pinned to the simulation's block reference;
* fallible operations return Except;
* the HashMaps inside revm's CacheDB are association lists whose
  insert replaces the first occurrence of the key in place.
-/

namespace RevmProxy

/-- Lookup of the first binding of a key in an association list. -/
def alookup {β : Type} (l : List (Nat × β)) (a : Nat) : Option β :=
  match l with
  | [] => none
  | (x, y) :: rest => if x = a then some y else alookup rest a

/-- Insert a binding, replacing the first existing binding of the key in
place and appending when the key is absent.  This models in-place update
of an entry of a Rust HashMap. -/
def ainsert {β : Type} (l : List (Nat × β)) (a : Nat) (b : β) : List (Nat × β) :=
  match l with
  | [] => [(a, b)]
  | (x, y) :: rest => if x = a then (a, b) :: rest else (x, y) :: ainsert rest a b

/-- Account data as held by revm: balance (U256), nonce (u64) and code. -/
structure AccountInfo where
  balance : Nat
  nonce : Nat
  code : List Nat
  deriving DecidableEq

/-- Default AccountInfo (revm's AccountInfo::default). -/
def AccountInfo.default : AccountInfo :=
  { balance := 0, nonce := 0, code := [] }

/-- The AccountState discriminant of a revm CacheDB entry. -/
inductive AccountState where
  | notExisting
  | touched
  | storageCleared
  | none
  deriving DecidableEq

/-- One cached account of revm's CacheDB: info, state and storage map. -/
structure DbAccount where
  info : AccountInfo
  account_state : AccountState
  storage : List (Nat × Nat)
  deriving DecidableEq

/-- Default DbAccount (revm's DbAccount::default). -/
def DbAccount.default : DbAccount :=
  { info := AccountInfo.default, account_state := .none, storage := [] }

/-- DbAccount::new_not_existing of revm. -/
def DbAccount.new_not_existing : DbAccount :=
  { info := AccountInfo.default, account_state := .notExisting, storage := [] }

/-- Conversion of a fetched Option of AccountInfo into a DbAccount
(revm's From instance used by CacheDB on a cache miss). -/
def dbAccountOf (oi : Option AccountInfo) : DbAccount :=
  match oi with
  | some i => { info := i, account_state := .none, storage := [] }
  | Option.none => DbAccount.new_not_existing

/-- The remote node as seen through the SharedBackend, pinned to the
simulation's block reference: account fetch (DatabaseRef::basic_ref) and
storage-slot fetch (DatabaseRef::storage_ref). -/
structure Remote where
  basic : Nat → Except String (Option AccountInfo)
  storage_ref : Nat → Nat → Except String Nat

/-- The per-simulation overlay: revm's CacheDB account map. -/
structure CacheDB where
  accounts : List (Nat × DbAccount)
  deriving DecidableEq

/-- Fresh overlay built by CacheDB::new at the start of each handler. -/
def CacheDB.empty : CacheDB := { accounts := [] }

/-- CacheDB::load_account: serve the entry from the cache, fetching it
from the remote node and caching it on a miss. -/
def CacheDB.load_account (db : CacheDB) (r : Remote) (addr : Nat) :
    Except String (DbAccount × CacheDB) :=
  match alookup db.accounts addr with
  | some acc => .ok (acc, db)
  | Option.none =>
    match r.basic addr with
    | .error e => .error e
    | .ok oi =>
      let acc := dbAccountOf oi
      .ok (acc, { accounts := ainsert db.accounts addr acc })

/-- CacheDB::insert_account_info: set the info of the entry, creating a
default entry when absent. -/
def CacheDB.insert_account_info (db : CacheDB) (addr : Nat) (info : AccountInfo) : CacheDB :=
  let acc := (alookup db.accounts addr).getD DbAccount.default
  { accounts := ainsert db.accounts addr { acc with info := info } }

/-- CacheDB::insert_account_storage: load the account (lazily fetching
it on a miss) and write one storage slot of it. -/
def CacheDB.insert_account_storage (db : CacheDB) (r : Remote) (addr slot value : Nat) :
    Except String CacheDB :=
  match db.load_account r addr with
  | .error e => .error e
  | .ok (acc, db₁) =>
    .ok { accounts := ainsert db₁.accounts addr
            { acc with storage := ainsert acc.storage slot value } }

/-- Database::storage of revm's CacheDB: the storage read path used
during execution — cached slot, else zero for non-existing or cleared
accounts, else a lazy fetch that is cached. -/
def CacheDB.storageRead (db : CacheDB) (r : Remote) (addr index : Nat) :
    Except String (Nat × CacheDB) :=
  match alookup db.accounts addr with
  | some acc =>
    match alookup acc.storage index with
    | some v => .ok (v, db)
    | Option.none =>
      match acc.account_state with
      | .storageCleared => .ok (0, db)
      | .notExisting => .ok (0, db)
      | _ =>
        match r.storage_ref addr index with
        | .error e => .error e
        | .ok slot =>
          .ok (slot, { accounts := ainsert db.accounts addr
                        { acc with storage := ainsert acc.storage index slot } })
  | Option.none =>
    match r.basic addr with
    | .error e => .error e
    | .ok (some info) =>
      match r.storage_ref addr index with
      | .error e => .error e
      | .ok value =>
        .ok (value, { accounts := ainsert db.accounts addr
                        { info := info, account_state := .none,
                          storage := ainsert [] index value } })
    | .ok Option.none =>
      .ok (0, { accounts := ainsert db.accounts addr DbAccount.new_not_existing })

/-- One storage read performed during execution, keeping the overlay
unchanged when the read fails (used to quantify over read sequences). -/
def readStep (r : Remote) (db : CacheDB) (ak : Nat × Nat) : CacheDB :=
  match db.storageRead r ak.1 ak.2 with
  | .error _ => db
  | .ok (_, db') => db'

/-- A sequence of storage reads performed during execution. -/
def foldReads (r : Remote) (db : CacheDB) (reads : List (Nat × Nat)) : CacheDB :=
  reads.foldl (readStep r) db

/-- Transaction target: alloy's TxKind (revm's TransactTo). -/
inductive TxKind where
  | create
  | call (addr : Nat)
  deriving DecidableEq

/-- The transaction environment fields of revm's TxEnv that the proxy
sets (gas_limit is a u64, the others are U256/address/bytes). -/
structure TxEnv where
  caller : Nat
  data : List Nat
  value : Nat
  nonce : Option Nat
  transact_to : TxKind
  gas_limit : Nat
  gas_price : Nat
  deriving DecidableEq

/-- TxEnv::default of revm: zero caller, empty data, zero value, unset
nonce, call to the zero address, u64::MAX gas limit, zero gas price. -/
def TxEnv.default : TxEnv :=
  { caller := 0, data := [], value := 0, nonce := Option.none,
    transact_to := .call 0, gas_limit := 2 ^ 64 - 1, gas_price := 0 }

/-- The two input-payload members of an inbound TransactionRequest
(alloy's TransactionInput holds both the new `input` shape and the
legacy `data` shape). -/
structure TransactionInput where
  input : Option (List Nat)
  data : Option (List Nat)
  deriving DecidableEq

/-- The fields of the inbound TransactionRequest read by the proxy. -/
structure TransactionRequest where
  sender : Option Nat
  input : TransactionInput
  value : Option Nat
  nonce : Option Nat
  to_ : Option TxKind
  gas : Option Nat
  gas_price : Option Nat
  deriving DecidableEq

/-- Clamped u64 conversion: g.try_into().unwrap_or(u64::MAX). -/
def clampU64 (g : Nat) : Nat :=
  if g < 2 ^ 64 then g else 2 ^ 64 - 1

/-- The modify_tx_env closure of estimate_gas (rpc.rs lines 217-231):
note tx.data is taken from the request's `input` member. -/
def modify_tx_env_estimate (request : TransactionRequest) (tx : TxEnv) : TxEnv :=
  { caller := request.sender.getD tx.caller,
    data := request.input.input.getD [],
    value := request.value.getD 0,
    nonce := request.nonce,
    transact_to := request.to_.getD tx.transact_to,
    gas_limit := (request.gas.map clampU64).getD tx.gas_limit,
    gas_price := request.gas_price.getD tx.gas_price }

/-- The modify_tx_env closure of call (rpc.rs lines 291-305): note
tx.data is taken from the request's `data` member. -/
def modify_tx_env_call (request : TransactionRequest) (tx : TxEnv) : TxEnv :=
  { caller := request.sender.getD tx.caller,
    data := request.input.data.getD [],
    value := request.value.getD 0,
    nonce := request.nonce,
    transact_to := request.to_.getD tx.transact_to,
    gas_limit := (request.gas.map clampU64).getD tx.gas_limit,
    gas_price := request.gas_price.getD tx.gas_price }

/-- The two members of a state override that the proxy reads: an
optional balance replacement and an optional storage diff. -/
structure AccountOverride where
  balance : Option Nat
  state_diff : Option (List (Nat × Nat))
  deriving DecidableEq

/-- A caller-supplied state override set (a map from address to
account override; both maps are HashMaps in the source, hence their
keys are pairwise distinct there). -/
abbrev StateOverride : Type := List (Nat × AccountOverride)

/-- One storage-diff write as the handlers perform it: the Result of
insert_account_storage is discarded with a wildcard let, so a failed
write leaves the overlay unchanged and reports nothing. -/
def insertSwallow (r : Remote) (addr : Nat) (db : CacheDB) (kv : Nat × Nat) : CacheDB :=
  match db.insert_account_storage r addr kv.1 kv.2 with
  | .error _ => db
  | .ok db' => db'

/-- The state_diff branch of the override loop. -/
def applyStorageDiff (r : Remote) (db : CacheDB) (addr : Nat)
    (sd : Option (List (Nat × Nat))) : CacheDB :=
  match sd with
  | Option.none => db
  | some entries => entries.foldl (insertSwallow r addr) db

/-- The balance branch of the override loop: load the current account
(lazy fetch on a miss), replace only its balance, and store it back. -/
def applyBalance (r : Remote) (db : CacheDB) (addr : Nat) (bal : Option Nat) :
    Except String CacheDB :=
  match bal with
  | Option.none => .ok db
  | some b =>
    match db.load_account r addr with
    | .error e => .error e
    | .ok (account_info, db₁) =>
      .ok (db₁.insert_account_info addr { account_info.info with balance := b })

/-- The body of the override loop for one address. -/
def applyAccountOverride (r : Remote) (db : CacheDB) (addr : Nat)
    (acct : AccountOverride) : Except String CacheDB :=
  match applyBalance r db addr acct.balance with
  | .error e => .error e
  | .ok db₁ => .ok (applyStorageDiff r db₁ addr acct.state_diff)

/-- The override loop of both handlers (rpc.rs lines 235-257 and
309-331): per address, balance branch then storage branch; a balance
fetch failure aborts the whole application. -/
def applyOverrides (r : Remote) (ov : StateOverride) (db : CacheDB) :
    Except String CacheDB :=
  match ov with
  | [] => .ok db
  | (addr, acct) :: rest =>
    match applyAccountOverride r db addr acct with
    | .error e => .error e
    | .ok db₁ => applyOverrides r rest db₁

/-- Well-formedness inherited from the source types: a StateOverride is
a HashMap keyed by address and each state_diff is a HashMap keyed by
slot, so keys are pairwise distinct. -/
def WFStateOverride (ov : StateOverride) : Prop :=
  (ov.map Prod.fst).Nodup ∧
    ∀ p ∈ ov, ∀ l, p.2.state_diff = some l → (l.map Prod.fst).Nodup

/-- The invalid-transaction errors produced by reth's ensure_success for
unsuccessful executions (RpcInvalidTransactionError): the Execution
Reverted class. -/
inductive RpcInvalidTransactionError where
  | revert (output : List Nat)
  | evmHalt (reason : String)
  deriving DecidableEq

/-- The reth EthApiError variants reachable from this program:
InvalidParams for pass-through upstream failures, EvmCustom for backend
and engine failures, InvalidTransaction for revert and halt
outcomes. -/
inductive EthApiError where
  | invalidParams (msg : String)
  | evmCustom (msg : String)
  | invalidTransaction (err : RpcInvalidTransactionError)
  deriving DecidableEq

/-- Outcome of one simulated transaction as returned by revm
(ExecutionResult): success with gas and output, revert with gas and
output, halt with a reason and gas. -/
inductive ExecutionResult where
  | success (gasUsed : Nat) (output : List Nat)
  | revert (gasUsed : Nat) (output : List Nat)
  | halt (reason : String) (gasUsed : Nat)
  deriving DecidableEq

/-- ExecutionResult::gas_used of revm. -/
def ExecutionResult.gas_used : ExecutionResult → Nat
  | .success g _ => g
  | .revert g _ => g
  | .halt _ g => g

/-- The ensure_success helper of reth_rpc_eth_types used by both
handlers: success yields the output bytes, revert and halt yield an
InvalidTransaction (Execution Reverted) error carrying the output or
reason. -/
def ensure_success (res : ExecutionResult) : Except EthApiError (List Nat) :=
  match res with
  | .success _ output => .ok output
  | .revert _ output => .error (.invalidTransaction (.revert output))
  | .halt reason _ => .error (.invalidTransaction (.evmHalt reason))

/-- The execution engine (Evm::transact) as an external collaborator: it
receives the built transaction environment and the overlay and returns
either an outcome together with the post-state or an EVM-level error. -/
abbrev Engine : Type :=
  TxEnv → CacheDB → Except String (ExecutionResult × CacheDB)

/-- The override phase of both handlers: absent override set leaves the
fresh overlay untouched; a failing application surfaces as EvmCustom
(via the map_err at the load_account call). -/
def overridePhase (r : Remote) (so : Option StateOverride) (db : CacheDB) :
    Except EthApiError CacheDB :=
  match so with
  | Option.none => .ok db
  | some overrides =>
    match applyOverrides r overrides db with
    | .error e => .error (.evmCustom e)
    | .ok db₁ => .ok db₁

/-- The estimate_gas handler (rpc.rs lines 195-267): build the tx env
from the request over a fresh overlay backed by the remote node, apply
the overrides, run the engine, take gas_used, and gate the result
through ensure_success. -/
def estimate_gas (r : Remote) (engine : Engine) (request : TransactionRequest)
    (state_override : Option StateOverride) : Except EthApiError Nat :=
  let tx := modify_tx_env_estimate request TxEnv.default
  match overridePhase r state_override CacheDB.empty with
  | .error e => .error e
  | .ok db₁ =>
    match engine tx db₁ with
    | .error e => .error (.evmCustom e)
    | .ok (res, _) =>
      let gas_used := res.gas_used
      match ensure_success res with
      | .error e => .error e
      | .ok _ => .ok gas_used

/-- The call handler (rpc.rs lines 269-337): same pipeline, except the
tx env takes its data from the request's `data` member and the response
is the output bytes of ensure_success. -/
def call (r : Remote) (engine : Engine) (request : TransactionRequest)
    (state_overrides : Option StateOverride) : Except EthApiError (List Nat) :=
  let tx := modify_tx_env_call request TxEnv.default
  match overridePhase r state_overrides CacheDB.empty with
  | .error e => .error e
  | .ok db₁ =>
    match engine tx db₁ with
    | .error e => .error (.evmCustom e)
    | .ok (res, _) => ensure_success res

/-- The getBalance pass-through handler (rpc.rs lines 182-191): an
upstream failure is surfaced as InvalidParams with the underlying
message. -/
def balance (getBalance : Nat → Except String Nat) (addr : Nat) :
    Except EthApiError Nat :=
  match getBalance addr with
  | .error e => .error (.invalidParams e)
  | .ok b => .ok b

/-- Test for the invalid-params error class of a handler result. -/
def isInvalidParamsClass {α : Type} (res : Except EthApiError α) : Bool :=
  match res with
  | .error (.invalidParams _) => true
  | _ => false

/-- Concrete remote node whose account fetches all fail (an upstream
outage), used for counterexamples. -/
def rFail : Remote :=
  { basic := fun _ => .error "boom", storage_ref := fun _ _ => .error "boom" }

/-- Concrete remote node with one funded account at address 5 of nonce
7 and code [1], used for witnesses. -/
def rGood : Remote :=
  { basic := fun a =>
      if a = 5 then .ok (some { balance := 100, nonce := 7, code := [1] })
      else .ok Option.none,
    storage_ref := fun _ _ => .ok 42 }

/-- Concrete engine that succeeds with 21000 gas and empty output. -/
def engineOk : Engine :=
  fun _ db => .ok (.success 21000 [], db)

/-- Concrete engine that reverts with output [0xde, 0xad]. -/
def engineRevert : Engine :=
  fun _ db => .ok (.revert 777 [222, 173], db)

/-- Concrete empty request: every optional field absent. -/
def req₀ : TransactionRequest :=
  { sender := Option.none, input := { input := Option.none, data := Option.none },
    value := Option.none, nonce := Option.none, to_ := Option.none,
    gas := Option.none, gas_price := Option.none }

/-- Concrete request whose `input` member is set but whose `data` member
is absent. -/
def reqInputOnly : TransactionRequest :=
  { req₀ with input := { input := some [1], data := Option.none } }

/-- Concrete request asking for a gas limit above u64::MAX. -/
def reqBigGas : TransactionRequest :=
  { req₀ with gas := some (2 ^ 64 + 3) }

/-- Concrete override: storage slot 2 of address 5 set to 9. -/
def ovStorage : StateOverride :=
  [(5, { balance := Option.none, state_diff := some [(2, 9)] })]

/-- Concrete override: balance of address 5 replaced by 1000. -/
def ovBalance : StateOverride :=
  [(5, { balance := some 1000, state_diff := Option.none })]

/-- Concrete request whose sender is address 5. -/
def reqFrom5 : TransactionRequest :=
  { req₀ with sender := some 5 }

/-- The concrete overlay produced by applying ovBalance to a fresh
overlay over rGood. -/
def dbAfterBalance : CacheDB :=
  { accounts := [(5, { info := { balance := 1000, nonce := 7, code := [1] },
                       account_state := .none, storage := [] })] }

/-- The concrete overlay produced by applying ovStorage to a fresh
overlay over rGood. -/
def dbAfterStorage : CacheDB :=
  { accounts := [(5, { info := { balance := 100, nonce := 7, code := [1] },
                       account_state := .none, storage := [(2, 9)] })] }

end RevmProxy

namespace RevmProxy

/-! Association-list lemmas shared by the claim proofs. -/

theorem alookup_ainsert_self {β : Type} (l : List (Nat × β)) (a : Nat) (b : β) :
    alookup (ainsert l a b) a = some b := by
  induction l with
  | nil => simp [ainsert, alookup]
  | cons p rest ih =>
    obtain ⟨x, y⟩ := p
    by_cases hx : x = a
    · subst hx
      simp [ainsert, alookup]
    · simp [ainsert, alookup, hx, ih]

theorem alookup_ainsert_ne {β : Type} (l : List (Nat × β)) (a a' : Nat) (b : β)
    (h : a' ≠ a) : alookup (ainsert l a b) a' = alookup l a' := by
  have h' : a ≠ a' := fun hc => h hc.symm
  induction l with
  | nil => simp [ainsert, alookup, h']
  | cons p rest ih =>
    obtain ⟨x, y⟩ := p
    by_cases hx : x = a
    · subst hx
      simp [ainsert, alookup, h']
    · simp [ainsert, alookup, hx, ih]

theorem ainsert_lookup_self {β : Type} (l : List (Nat × β)) (a : Nat) (b : β)
    (h : alookup l a = some b) : ainsert l a b = l := by
  induction l with
  | nil => simp [alookup] at h
  | cons p rest ih =>
    obtain ⟨x, y⟩ := p
    by_cases hx : x = a
    · subst hx
      simp [alookup] at h
      simp [ainsert, h]
    · simp [alookup, hx] at h
      simp [ainsert, hx, ih h]

end RevmProxy

namespace RevmProxy

/-- C1 counterexample: on a request that supplies the payload through
the `input` member only, estimate_gas builds tx.data = [1] while call
builds tx.data = [], so the two handlers do not construct the same
tx.data and the two request shapes are not synonyms. -/
theorem claim_C1_counterexample :
    reqInputOnly.input.input = some [1] ∧
    reqInputOnly.input.data = Option.none ∧
    (modify_tx_env_estimate reqInputOnly TxEnv.default).data = [1] ∧
    (modify_tx_env_call reqInputOnly TxEnv.default).data = [] ∧
    ([1] : List Nat) ≠ [] :=
  ⟨rfl, rfl, rfl, rfl, by decide⟩

/-- C1 amended: estimate_gas resolves the built tx.data from the
request's `input` member and call resolves it from the `data` member
(each defaulting to empty); the two handlers construct the same tx.data
whenever the two members are equal, and only the coincidence of the two
members makes them agree. -/
theorem claim_C1_amended (request : TransactionRequest) :
    (modify_tx_env_estimate request TxEnv.default).data
      = request.input.input.getD [] ∧
    (modify_tx_env_call request TxEnv.default).data
      = request.input.data.getD [] ∧
    (request.input.input = request.input.data →
      (modify_tx_env_estimate request TxEnv.default).data
        = (modify_tx_env_call request TxEnv.default).data) := by
  refine ⟨rfl, rfl, fun h => ?_⟩
  simp [modify_tx_env_estimate, modify_tx_env_call, h]

/-- Witness for C1 amended at the empty request. -/
theorem claim_C1_amended_witness :
    (modify_tx_env_estimate req₀ TxEnv.default).data
      = (modify_tx_env_call req₀ TxEnv.default).data :=
  (claim_C1_amended req₀).2.2 rfl

/-- C7 counterexample: the empty request has no recipient, yet both
handlers build an intent whose target is a call to the zero address
(revm's TxEnv default), not a contract creation. -/
theorem claim_C7_counterexample :
    req₀.to_ = Option.none ∧
    (modify_tx_env_estimate req₀ TxEnv.default).transact_to = TxKind.call 0 ∧
    (modify_tx_env_call req₀ TxEnv.default).transact_to = TxKind.call 0 ∧
    TxKind.call 0 ≠ TxKind.create :=
  ⟨rfl, rfl, rfl, by decide⟩

/-- C7 amended: when the recipient field is absent the builder leaves
the target at the engine's default — a call to the zero address — so no
contract-creation intent is produced; creation occurs only when the
request explicitly carries the create kind. -/
theorem claim_C7_amended (request : TransactionRequest)
    (h : request.to_ = Option.none) :
    (modify_tx_env_estimate request TxEnv.default).transact_to = TxKind.call 0 ∧
    (modify_tx_env_call request TxEnv.default).transact_to = TxKind.call 0 := by
  simp [modify_tx_env_estimate, modify_tx_env_call, h, TxEnv.default]

/-- Witness for C7 amended at the empty request. -/
theorem claim_C7_amended_witness :
    (modify_tx_env_estimate req₀ TxEnv.default).transact_to = TxKind.call 0 ∧
    (modify_tx_env_call req₀ TxEnv.default).transact_to = TxKind.call 0 :=
  claim_C7_amended req₀ rfl

/-- C8 counterexample: with the sender being address 5, whose current
nonce as lazily fetched from the state view is 7, a request without an
explicit nonce builds an intent whose nonce is unset — not 7. -/
theorem claim_C8_counterexample :
    reqFrom5.nonce = Option.none ∧
    CacheDB.load_account CacheDB.empty rGood 5
      = .ok ({ info := { balance := 100, nonce := 7, code := [1] },
               account_state := .none, storage := [] },
             { accounts := [(5, { info := { balance := 100, nonce := 7, code := [1] },
                                  account_state := .none, storage := [] })] }) ∧
    (modify_tx_env_estimate reqFrom5 TxEnv.default).nonce = Option.none ∧
    (modify_tx_env_call reqFrom5 TxEnv.default).nonce = Option.none ∧
    (Option.none : Option Nat) ≠ some 7 :=
  ⟨rfl, rfl, rfl, rfl, by decide⟩

/-- C8 amended: the builders copy the request's optional nonce
verbatim into the intent; an absent nonce stays unset (which makes the
engine skip the nonce check), and no lazy fetch is performed by the
builder. -/
theorem claim_C8_amended (request : TransactionRequest) :
    (modify_tx_env_estimate request TxEnv.default).nonce = request.nonce ∧
    (modify_tx_env_call request TxEnv.default).nonce = request.nonce :=
  ⟨rfl, rfl⟩

/-- C9: the built gas limit always fits in a u64 (building never
overflows — the model is a total function), and a requested gas limit
at or above 2^64 is clamped to u64::MAX in both handlers. -/
theorem claim_C9 (request : TransactionRequest) :
    (modify_tx_env_estimate request TxEnv.default).gas_limit < 2 ^ 64 ∧
    (modify_tx_env_call request TxEnv.default).gas_limit < 2 ^ 64 ∧
    (∀ g, request.gas = some g → 2 ^ 64 ≤ g →
      (modify_tx_env_estimate request TxEnv.default).gas_limit = 2 ^ 64 - 1 ∧
      (modify_tx_env_call request TxEnv.default).gas_limit = 2 ^ 64 - 1) := by
  have hclt : ∀ g : Nat, clampU64 g < 2 ^ 64 := by
    intro g
    unfold clampU64
    split
    · assumption
    · omega
  have hcmax : ∀ g : Nat, 2 ^ 64 ≤ g → clampU64 g = 2 ^ 64 - 1 := by
    intro g hg
    unfold clampU64
    split
    · omega
    · rfl
  have he : (modify_tx_env_estimate request TxEnv.default).gas_limit
      = (request.gas.map clampU64).getD (2 ^ 64 - 1) := rfl
  have hc : (modify_tx_env_call request TxEnv.default).gas_limit
      = (request.gas.map clampU64).getD (2 ^ 64 - 1) := rfl
  refine ⟨?_, ?_, fun g hg hge => ?_⟩
  · rw [he]
    cases hx : request.gas with
    | none => exact (by omega : 2 ^ 64 - 1 < 2 ^ 64)
    | some g => exact hclt g
  · rw [hc]
    cases hx : request.gas with
    | none => exact (by omega : 2 ^ 64 - 1 < 2 ^ 64)
    | some g => exact hclt g
  · rw [he, hc, hg]
    exact ⟨hcmax g hge, hcmax g hge⟩

/-- Witness for C9 at a request asking for 2^64 + 3 gas. -/
theorem claim_C9_witness :
    (modify_tx_env_estimate reqBigGas TxEnv.default).gas_limit = 2 ^ 64 - 1 ∧
    (modify_tx_env_call reqBigGas TxEnv.default).gas_limit = 2 ^ 64 - 1 :=
  (claim_C9 reqBigGas).2.2 (2 ^ 64 + 3) rfl (by norm_num)

end RevmProxy

namespace RevmProxy

/-- C2: whenever the setup phase succeeds and the engine returns an
outcome for the built intent, estimate_gas answers the consumed gas on
Success and an Execution Reverted (InvalidTransaction) error carrying
the revert output or halt reason on Revert or Halt, and call answers
the returned bytes on Success and the same error on Revert or Halt; in
the failing cases neither a gas value nor bytes are returned, the
result being exactly the error. -/
theorem claim_C2 (r : Remote) (engine : Engine) (req : TransactionRequest)
    (so : Option StateOverride) (db₁ db₂ db₃ : CacheDB)
    (res₁ res₂ : ExecutionResult)
    (hsetup : overridePhase r so CacheDB.empty = .ok db₁)
    (h₁ : engine (modify_tx_env_estimate req TxEnv.default) db₁ = .ok (res₁, db₂))
    (h₂ : engine (modify_tx_env_call req TxEnv.default) db₁ = .ok (res₂, db₃)) :
    estimate_gas r engine req so = (match res₁ with
      | .success g _ => .ok g
      | .revert _ out => .error (.invalidTransaction (.revert out))
      | .halt reason _ => .error (.invalidTransaction (.evmHalt reason))) ∧
    call r engine req so = (match res₂ with
      | .success _ out => .ok out
      | .revert _ out => .error (.invalidTransaction (.revert out))
      | .halt reason _ => .error (.invalidTransaction (.evmHalt reason))) := by
  constructor
  · cases res₁ <;>
      simp [estimate_gas, hsetup, h₁, ensure_success, ExecutionResult.gas_used]
  · cases res₂ <;> simp [call, hsetup, h₂, ensure_success]

/-- Witness for C2: a reverting engine makes both handlers fail with
the Execution Reverted error carrying the revert data. -/
theorem claim_C2_witness :
    estimate_gas rGood engineRevert req₀ Option.none
      = .error (.invalidTransaction (.revert [222, 173])) ∧
    call rGood engineRevert req₀ Option.none
      = .error (.invalidTransaction (.revert [222, 173])) :=
  claim_C2 rGood engineRevert req₀ Option.none CacheDB.empty CacheDB.empty
    CacheDB.empty (.revert 777 [222, 173]) (.revert 777 [222, 173]) rfl rfl rfl

/-- C5 counterexample: a balance-override fetch failure (a setup
failure) surfaces from both handlers as the EvmCustom error variant,
which is not of the invalid-params class that an Upstream Error of a
pass-through method (here getBalance) is surfaced with. -/
theorem claim_C5_counterexample :
    estimate_gas rFail engineOk req₀ (some ovBalance)
      = .error (.evmCustom "boom") ∧
    call rFail engineOk req₀ (some ovBalance)
      = .error (.evmCustom "boom") ∧
    balance (fun _ => .error "boom") 0 = .error (.invalidParams "boom") ∧
    isInvalidParamsClass (estimate_gas rFail engineOk req₀ (some ovBalance))
      = false ∧
    isInvalidParamsClass (balance (fun _ => .error "boom") 0) = true :=
  ⟨rfl, rfl, rfl, rfl, rfl⟩

/-- C5 amended: a failure while applying the overrides before
execution surfaces from both handlers as the EvmCustom error variant
carrying the underlying message — a class distinct both from the
invalid-params class used for Upstream Errors of the pass-through
methods and from the Execution Reverted class used for revert and halt
outcomes. -/
theorem claim_C5_amended (r : Remote) (engine : Engine)
    (req : TransactionRequest) (ov : StateOverride) (e : String)
    (h : applyOverrides r ov CacheDB.empty = .error e) :
    estimate_gas r engine req (some ov) = .error (.evmCustom e) ∧
    call r engine req (some ov) = .error (.evmCustom e) ∧
    (∀ m, EthApiError.evmCustom e ≠ .invalidParams m) ∧
    (∀ t, EthApiError.evmCustom e ≠ .invalidTransaction t) := by
  refine ⟨?_, ?_, ?_, ?_⟩
  · simp [estimate_gas, overridePhase, h]
  · simp [call, overridePhase, h]
  · intro m hc
    cases hc
  · intro t hc
    cases hc

/-- Witness for C5 amended at the failing remote. -/
theorem claim_C5_amended_witness :
    estimate_gas rFail engineRevert req₀ (some ovBalance)
      = .error (.evmCustom "boom") ∧
    EthApiError.evmCustom "boom" ≠ .invalidParams "boom" := by
  have h := claim_C5_amended rFail engineRevert req₀ ovBalance "boom" rfl
  exact ⟨h.1, h.2.2.1 "boom"⟩

/-- C6 counterexample: over a remote whose account fetch fails, writing
the storage override into the overlay fails, yet the override loop
reports success with the entry unwritten and the whole estimate_gas
request succeeds — the storage-override write failure is silently
swallowed (the source discards the Result of insert_account_storage
with a wildcard let). -/
theorem claim_C6_counterexample :
    CacheDB.insert_account_storage CacheDB.empty rFail 5 2 9
      = .error "boom" ∧
    applyOverrides rFail ovStorage CacheDB.empty = .ok CacheDB.empty ∧
    estimate_gas rFail engineOk req₀ (some ovStorage) = .ok 21000 ∧
    call rFail engineOk req₀ (some ovStorage) = .ok [] :=
  ⟨rfl, rfl, rfl, rfl⟩

/-- C6 amended: every failure except a failed storage-override write
yields a structured error, but a failed storage-override write is
discarded: the overlay is left unchanged and no error is surfaced for
it. -/
theorem claim_C6_amended (r : Remote) (db : CacheDB) (addr k v : Nat)
    (e : String) (h : CacheDB.insert_account_storage db r addr k v = .error e) :
    insertSwallow r addr db (k, v) = db := by
  unfold insertSwallow
  rw [h]

/-- Witness for C6 amended at the failing remote. -/
theorem claim_C6_amended_witness :
    insertSwallow rFail 5 CacheDB.empty (2, 9) = CacheDB.empty :=
  claim_C6_amended rFail CacheDB.empty 5 2 9 "boom" rfl

/-- C4: a successful balance override first loads the current account
— performing the lazy remote fetch exactly when the address is not
cached — and then stores it back with only the balance replaced: the
nonce and code of the stored record equal the fetched ones. -/
theorem claim_C4 (r : Remote) (db : CacheDB) (addr b : Nat) (db₂ : CacheDB)
    (h : applyBalance r db addr (some b) = .ok db₂) :
    ∃ acc db₁, CacheDB.load_account db r addr = .ok (acc, db₁) ∧
      (alookup db.accounts addr = Option.none →
        ∃ oi, r.basic addr = .ok oi ∧ acc = dbAccountOf oi) ∧
      ∃ acc', alookup db₂.accounts addr = some acc' ∧
        acc'.info.balance = b ∧
        acc'.info.nonce = acc.info.nonce ∧
        acc'.info.code = acc.info.code := by
  unfold applyBalance at h
  cases hl : CacheDB.load_account db r addr with
  | error e =>
    rw [hl] at h
    cases h
  | ok p =>
    obtain ⟨acc, db₁⟩ := p
    rw [hl] at h
    cases h
    refine ⟨acc, db₁, rfl, ?_, ?_⟩
    · intro hnone
      unfold CacheDB.load_account at hl
      rw [hnone] at hl
      cases hb : r.basic addr with
      | error e =>
        rw [hb] at hl
        cases hl
      | ok oi =>
        rw [hb] at hl
        cases hl
        exact ⟨oi, rfl, rfl⟩
    · refine ⟨{ (alookup db₁.accounts addr).getD DbAccount.default with
          info := { acc.info with balance := b } }, ?_, rfl, rfl, rfl⟩
      unfold CacheDB.insert_account_info
      exact alookup_ainsert_self _ _ _

/-- Witness for C4: overriding the balance of address 5 to 1000 over
rGood fetches the account (nonce 7, code [1]) and stores it back with
balance 1000, nonce 7 and code [1]. -/
theorem claim_C4_witness :
    ∃ acc db₁, CacheDB.load_account CacheDB.empty rGood 5 = .ok (acc, db₁) ∧
      (alookup CacheDB.empty.accounts 5 = Option.none →
        ∃ oi, rGood.basic 5 = .ok oi ∧ acc = dbAccountOf oi) ∧
      ∃ acc', alookup dbAfterBalance.accounts 5 = some acc' ∧
        acc'.info.balance = 1000 ∧
        acc'.info.nonce = acc.info.nonce ∧
        acc'.info.code = acc.info.code :=
  claim_C4 rGood CacheDB.empty 5 1000 dbAfterBalance rfl

end RevmProxy

namespace RevmProxy

/-! Locality lemmas: each CacheDB operation touches only the entry of
the address it is given. -/

theorem load_account_lookup_ne (db : CacheDB) (r : Remote) (a : Nat)
    (acc : DbAccount) (db₁ : CacheDB) (b : Nat) (hb : b ≠ a)
    (h : CacheDB.load_account db r a = .ok (acc, db₁)) :
    alookup db₁.accounts b = alookup db.accounts b := by
  unfold CacheDB.load_account at h
  cases hx : alookup db.accounts a with
  | some acc₀ =>
    rw [hx] at h
    cases h
    rfl
  | none =>
    rw [hx] at h
    cases hbk : r.basic a with
    | error e =>
      rw [hbk] at h
      cases h
    | ok oi =>
      rw [hbk] at h
      cases h
      exact alookup_ainsert_ne _ _ _ _ hb

theorem load_account_lookup_self (db : CacheDB) (r : Remote) (a : Nat)
    (acc : DbAccount) (db₁ : CacheDB)
    (h : CacheDB.load_account db r a = .ok (acc, db₁)) :
    alookup db₁.accounts a = some acc := by
  unfold CacheDB.load_account at h
  cases hx : alookup db.accounts a with
  | some acc₀ =>
    rw [hx] at h
    cases h
    exact hx
  | none =>
    rw [hx] at h
    cases hbk : r.basic a with
    | error e =>
      rw [hbk] at h
      cases h
    | ok oi =>
      rw [hbk] at h
      cases h
      exact alookup_ainsert_self _ _ _

theorem insert_account_storage_lookup_ne (db : CacheDB) (r : Remote)
    (a k v : Nat) (db' : CacheDB) (b : Nat) (hb : b ≠ a)
    (h : CacheDB.insert_account_storage db r a k v = .ok db') :
    alookup db'.accounts b = alookup db.accounts b := by
  unfold CacheDB.insert_account_storage at h
  cases hl : CacheDB.load_account db r a with
  | error e =>
    rw [hl] at h
    cases h
  | ok p =>
    obtain ⟨acc, db₁⟩ := p
    rw [hl] at h
    cases h
    rw [alookup_ainsert_ne _ _ _ _ hb]
    exact load_account_lookup_ne db r a acc db₁ b hb hl

theorem insertSwallow_lookup_ne (r : Remote) (a : Nat) (db : CacheDB)
    (kv : Nat × Nat) (b : Nat) (hb : b ≠ a) :
    alookup (insertSwallow r a db kv).accounts b = alookup db.accounts b := by
  unfold insertSwallow
  cases hi : CacheDB.insert_account_storage db r a kv.1 kv.2 with
  | error e => rfl
  | ok db' => exact insert_account_storage_lookup_ne db r a kv.1 kv.2 db' b hb hi

theorem applyStorageDiff_fold_lookup_ne (r : Remote) (a b : Nat) (hb : b ≠ a) :
    ∀ (sd : List (Nat × Nat)) (db : CacheDB),
    alookup (sd.foldl (insertSwallow r a) db).accounts b = alookup db.accounts b := by
  intro sd
  induction sd with
  | nil => intro db; rfl
  | cons kv rest ih =>
    intro db
    rw [List.foldl_cons, ih (insertSwallow r a db kv)]
    exact insertSwallow_lookup_ne r a db kv b hb

theorem applyStorageDiff_lookup_ne (r : Remote) (a : Nat) (db : CacheDB)
    (sd : Option (List (Nat × Nat))) (b : Nat) (hb : b ≠ a) :
    alookup (applyStorageDiff r db a sd).accounts b = alookup db.accounts b := by
  cases sd with
  | none => rfl
  | some l => exact applyStorageDiff_fold_lookup_ne r a b hb l db

theorem applyBalance_lookup_ne (r : Remote) (db : CacheDB) (a : Nat)
    (bal : Option Nat) (db' : CacheDB) (b : Nat) (hb : b ≠ a)
    (h : applyBalance r db a bal = .ok db') :
    alookup db'.accounts b = alookup db.accounts b := by
  unfold applyBalance at h
  cases bal with
  | none =>
    cases h
    rfl
  | some bv =>
    cases hl : CacheDB.load_account db r a with
    | error e =>
      rw [hl] at h
      cases h
    | ok p =>
      obtain ⟨acc, db₁⟩ := p
      rw [hl] at h
      cases h
      unfold CacheDB.insert_account_info
      rw [alookup_ainsert_ne _ _ _ _ hb]
      exact load_account_lookup_ne db r a acc db₁ b hb hl

theorem applyAccountOverride_lookup_ne (r : Remote) (db : CacheDB) (a : Nat)
    (acct : AccountOverride) (db' : CacheDB) (b : Nat) (hb : b ≠ a)
    (h : applyAccountOverride r db a acct = .ok db') :
    alookup db'.accounts b = alookup db.accounts b := by
  unfold applyAccountOverride at h
  cases hbal : applyBalance r db a acct.balance with
  | error e =>
    rw [hbal] at h
    cases h
  | ok db₁ =>
    rw [hbal] at h
    cases h
    rw [applyStorageDiff_lookup_ne r a db₁ acct.state_diff b hb]
    exact applyBalance_lookup_ne r db a acct.balance db₁ b hb hbal

theorem applyOverrides_lookup_notmem (r : Remote) (b : Nat) :
    ∀ (ov : StateOverride) (db db' : CacheDB),
    applyOverrides r ov db = .ok db' → b ∉ ov.map Prod.fst →
    alookup db'.accounts b = alookup db.accounts b := by
  intro ov
  induction ov with
  | nil =>
    intro db db' h _
    cases h
    rfl
  | cons p rest ih =>
    intro db db' h hnm
    obtain ⟨a, acct⟩ := p
    simp only [List.map_cons, List.mem_cons] at hnm
    push_neg at hnm
    unfold applyOverrides at h
    cases hstep : applyAccountOverride r db a acct with
    | error e =>
      rw [hstep] at h
      cases h
    | ok db₁ =>
      rw [hstep] at h
      rw [ih db₁ db' h hnm.2]
      exact applyAccountOverride_lookup_ne r db a acct db₁ b hnm.1 hstep

end RevmProxy

namespace RevmProxy

/-! Establishment and preservation lemmas for the storage-override
shadowing property (C3). -/

theorem insert_account_storage_lookup_self (db : CacheDB) (r : Remote)
    (a k v : Nat) (db' : CacheDB)
    (h : CacheDB.insert_account_storage db r a k v = .ok db') :
    ∃ acc, alookup db'.accounts a = some acc ∧ alookup acc.storage k = some v := by
  unfold CacheDB.insert_account_storage at h
  cases hl : CacheDB.load_account db r a with
  | error e =>
    rw [hl] at h
    cases h
  | ok p =>
    obtain ⟨acc, db₁⟩ := p
    rw [hl] at h
    cases h
    exact ⟨_, alookup_ainsert_self _ _ _, alookup_ainsert_self _ _ _⟩

theorem insertSwallow_live (r : Remote) (a : Nat) (db : CacheDB) (k w : Nat)
    (hlive : (∃ acc, alookup db.accounts a = some acc) ∨
      (∃ oi, r.basic a = .ok oi)) :
    ∃ acc', alookup (insertSwallow r a db (k, w)).accounts a = some acc' ∧
      alookup acc'.storage k = some w := by
  unfold insertSwallow
  cases hi : CacheDB.insert_account_storage db r a k w with
  | ok db' => exact insert_account_storage_lookup_self db r a k w db' hi
  | error e =>
    exfalso
    unfold CacheDB.insert_account_storage CacheDB.load_account at hi
    cases hx : alookup db.accounts a with
    | some acc₀ =>
      rw [hx] at hi
      cases hi
    | none =>
      rw [hx] at hi
      rcases hlive with ⟨acc, hacc⟩ | ⟨oi, hoi⟩
      · rw [hx] at hacc
        cases hacc
      · rw [hoi] at hi
        cases hi

theorem insertSwallow_live_preserved (r : Remote) (a : Nat) (db : CacheDB)
    (kv : Nat × Nat)
    (hlive : (∃ acc, alookup db.accounts a = some acc) ∨
      (∃ oi, r.basic a = .ok oi)) :
    (∃ acc, alookup (insertSwallow r a db kv).accounts a = some acc) ∨
      (∃ oi, r.basic a = .ok oi) := by
  rcases hlive with ⟨acc, hacc⟩ | h
  · left
    unfold insertSwallow
    cases hi : CacheDB.insert_account_storage db r a kv.1 kv.2 with
    | error e => exact ⟨acc, hacc⟩
    | ok db' =>
      obtain ⟨acc', hacc', _⟩ := insert_account_storage_lookup_self db r a kv.1 kv.2 db' hi
      exact ⟨acc', hacc'⟩
  · right
    exact h

theorem insertSwallow_preserves_slot (r : Remote) (a : Nat) (db : CacheDB)
    (k w key v : Nat) (hk : k ≠ key)
    (hp : ∃ acc, alookup db.accounts a = some acc ∧
      alookup acc.storage key = some v) :
    ∃ acc', alookup (insertSwallow r a db (k, w)).accounts a = some acc' ∧
      alookup acc'.storage key = some v := by
  obtain ⟨acc, hacc, hkey⟩ := hp
  unfold insertSwallow CacheDB.insert_account_storage CacheDB.load_account
  rw [hacc]
  refine ⟨{ acc with storage := ainsert acc.storage k w },
    alookup_ainsert_self _ _ _, ?_⟩
  rw [alookup_ainsert_ne _ _ _ _ (fun hc => hk hc.symm)]
  exact hkey

theorem applyStorageDiff_preserves_slot (r : Remote) (a key v : Nat) :
    ∀ (sd : List (Nat × Nat)) (db : CacheDB),
    (∀ p ∈ sd, p.1 ≠ key) →
    (∃ acc, alookup db.accounts a = some acc ∧
      alookup acc.storage key = some v) →
    ∃ acc, alookup (sd.foldl (insertSwallow r a) db).accounts a = some acc ∧
      alookup acc.storage key = some v := by
  intro sd
  induction sd with
  | nil =>
    intro db _ hp
    exact hp
  | cons kv rest ih =>
    intro db hne hp
    rw [List.foldl_cons]
    apply ih
    · intro p hp'
      exact hne p (List.mem_cons_of_mem _ hp')
    · obtain ⟨k, w⟩ := kv
      exact insertSwallow_preserves_slot r a db k w key v
        (hne (k, w) (List.mem_cons_self _ _)) hp

theorem applyStorageDiff_establishes (r : Remote) (a key v : Nat) :
    ∀ (sd : List (Nat × Nat)) (db : CacheDB),
    ((∃ acc, alookup db.accounts a = some acc) ∨
      (∃ oi, r.basic a = .ok oi)) →
    (key, v) ∈ sd → (sd.map Prod.fst).Nodup →
    ∃ acc, alookup (sd.foldl (insertSwallow r a) db).accounts a = some acc ∧
      alookup acc.storage key = some v := by
  intro sd
  induction sd with
  | nil =>
    intro db _ hm _
    cases hm
  | cons kv rest ih =>
    intro db hlive hm hnd
    rw [List.foldl_cons]
    have hnd' : kv.1 ∉ rest.map Prod.fst ∧ (rest.map Prod.fst).Nodup := by
      rw [List.map_cons] at hnd
      exact List.nodup_cons.mp hnd
    rcases List.mem_cons.mp hm with heq | hm'
    · cases heq
      apply applyStorageDiff_preserves_slot
      · intro p hp hc
        have hmm : p.1 ∈ rest.map Prod.fst := List.mem_map_of_mem Prod.fst hp
        rw [hc] at hmm
        exact hnd'.1 hmm
      · exact insertSwallow_live r a db key v hlive
    · exact ih (insertSwallow r a db kv)
        (insertSwallow_live_preserved r a db kv hlive) hm' hnd'.2

theorem applyBalance_post_present (r : Remote) (db : CacheDB) (a bv : Nat)
    (db' : CacheDB) (h : applyBalance r db a (some bv) = .ok db') :
    ∃ acc, alookup db'.accounts a = some acc := by
  unfold applyBalance at h
  cases hl : CacheDB.load_account db r a with
  | error e =>
    rw [hl] at h
    cases h
  | ok p =>
    obtain ⟨acc, db₁⟩ := p
    rw [hl] at h
    cases h
    exact ⟨_, alookup_ainsert_self _ _ _⟩

theorem applyAccountOverride_establishes (r : Remote) (db : CacheDB) (a : Nat)
    (acct : AccountOverride) (db' : CacheDB) (sd : List (Nat × Nat)) (key v : Nat)
    (hsd : acct.state_diff = some sd) (hkv : (key, v) ∈ sd)
    (hnd : (sd.map Prod.fst).Nodup)
    (hlive : (∃ acc, alookup db.accounts a = some acc) ∨
      (∃ oi, r.basic a = .ok oi))
    (h : applyAccountOverride r db a acct = .ok db') :
    ∃ acc, alookup db'.accounts a = some acc ∧
      alookup acc.storage key = some v := by
  unfold applyAccountOverride at h
  cases hbal : applyBalance r db a acct.balance with
  | error e =>
    rw [hbal] at h
    cases h
  | ok db₁ =>
    rw [hbal] at h
    cases h
    unfold applyStorageDiff
    rw [hsd]
    apply applyStorageDiff_establishes r a key v sd db₁ ?_ hkv hnd
    cases hb : acct.balance with
    | none =>
      rw [hb] at hbal
      unfold applyBalance at hbal
      cases hbal
      exact hlive
    | some bv =>
      rw [hb] at hbal
      left
      exact applyBalance_post_present r db a bv db₁ hbal

theorem applyOverrides_establishes (r : Remote) (addr : Nat)
    (acct : AccountOverride) (sd : List (Nat × Nat)) (key v : Nat)
    (hsd : acct.state_diff = some sd) (hkv : (key, v) ∈ sd)
    (hsdnd : (sd.map Prod.fst).Nodup) :
    ∀ (ov : StateOverride) (db db' : CacheDB),
    applyOverrides r ov db = .ok db' → (addr, acct) ∈ ov →
    (ov.map Prod.fst).Nodup →
    ((∃ acc, alookup db.accounts addr = some acc) ∨
      (∃ oi, r.basic addr = .ok oi)) →
    ∃ acc, alookup db'.accounts addr = some acc ∧
      alookup acc.storage key = some v := by
  intro ov
  induction ov with
  | nil =>
    intro db db' _ hm _ _
    cases hm
  | cons p rest ih =>
    intro db db' h hm hnd hlive
    obtain ⟨a₀, acct₀⟩ := p
    have hnd' : a₀ ∉ rest.map Prod.fst ∧ (rest.map Prod.fst).Nodup := by
      rw [List.map_cons] at hnd
      exact List.nodup_cons.mp hnd
    unfold applyOverrides at h
    cases hstep : applyAccountOverride r db a₀ acct₀ with
    | error e =>
      rw [hstep] at h
      cases h
    | ok db₁ =>
      rw [hstep] at h
      rcases List.mem_cons.mp hm with heq | hm'
      · cases heq
        have hest := applyAccountOverride_establishes r db addr acct db₁ sd
          key v hsd hkv hsdnd hlive hstep
        obtain ⟨acc, hacc, hkey⟩ := hest
        refine ⟨acc, ?_, hkey⟩
        rw [applyOverrides_lookup_notmem r addr rest db₁ db' h hnd'.1]
        exact hacc
      · have haddr : addr ∈ rest.map Prod.fst :=
          List.mem_map_of_mem Prod.fst hm'
        have hne : addr ≠ a₀ := by
          intro hc
          exact hnd'.1 (hc ▸ haddr)
        apply ih db₁ db' h hm' hnd'.2
        rcases hlive with ⟨acc, hacc⟩ | hr
        · left
          refine ⟨acc, ?_⟩
          rw [applyAccountOverride_lookup_ne r db a₀ acct₀ db₁ addr hne hstep]
          exact hacc
        · right
          exact hr

end RevmProxy

namespace RevmProxy

theorem storageRead_lookup_ne (db : CacheDB) (r : Remote) (a i : Nat)
    (val : Nat) (db' : CacheDB) (b : Nat) (hb : b ≠ a)
    (h : CacheDB.storageRead db r a i = .ok (val, db')) :
    alookup db'.accounts b = alookup db.accounts b := by
  unfold CacheDB.storageRead at h
  cases hx : alookup db.accounts a with
  | some acc =>
    simp only [hx] at h
    cases hs : alookup acc.storage i with
    | some w =>
      simp only [hs] at h
      cases h
      rfl
    | none =>
      simp only [hs] at h
      cases hst : acc.account_state with
      | storageCleared =>
        simp only [hst] at h
        cases h
        rfl
      | notExisting =>
        simp only [hst] at h
        cases h
        rfl
      | touched =>
        simp only [hst] at h
        cases hrf : r.storage_ref a i with
        | error e =>
          simp only [hrf] at h
          cases h
        | ok slot =>
          simp only [hrf] at h
          cases h
          exact alookup_ainsert_ne _ _ _ _ hb
      | none =>
        simp only [hst] at h
        cases hrf : r.storage_ref a i with
        | error e =>
          simp only [hrf] at h
          cases h
        | ok slot =>
          simp only [hrf] at h
          cases h
          exact alookup_ainsert_ne _ _ _ _ hb
  | none =>
    simp only [hx] at h
    cases hbk : r.basic a with
    | error e =>
      simp only [hbk] at h
      cases h
    | ok oi =>
      simp only [hbk] at h
      cases oi with
      | some info =>
        cases hrf : r.storage_ref a i with
        | error e =>
          simp only [hrf] at h
          cases h
        | ok value =>
          simp only [hrf] at h
          cases h
          exact alookup_ainsert_ne _ _ _ _ hb
      | none =>
        cases h
        exact alookup_ainsert_ne _ _ _ _ hb

theorem storageRead_hit (db : CacheDB) (r : Remote) (addr key v : Nat)
    (acc : DbAccount) (h1 : alookup db.accounts addr = some acc)
    (h2 : alookup acc.storage key = some v) :
    CacheDB.storageRead db r addr key = .ok (v, db) := by
  unfold CacheDB.storageRead
  simp only [h1, h2]

theorem readStep_preserves_slot (r : Remote) (addr key v : Nat) (db : CacheDB)
    (ak : Nat × Nat)
    (hp : ∃ acc, alookup db.accounts addr = some acc ∧
      alookup acc.storage key = some v) :
    ∃ acc, alookup (readStep r db ak).accounts addr = some acc ∧
      alookup acc.storage key = some v := by
  obtain ⟨acc, hacc, hkey⟩ := hp
  by_cases ha : ak.1 = addr
  · subst ha
    cases hs : alookup acc.storage ak.2 with
    | some w =>
      have heq : CacheDB.storageRead db r ak.1 ak.2 = .ok (w, db) :=
        storageRead_hit db r ak.1 ak.2 w acc hacc hs
      unfold readStep
      rw [heq]
      exact ⟨acc, hacc, hkey⟩
    | none =>
      cases hst : acc.account_state with
      | storageCleared =>
        have heq : CacheDB.storageRead db r ak.1 ak.2 = .ok (0, db) := by
          unfold CacheDB.storageRead
          simp only [hacc, hs, hst]
        unfold readStep
        rw [heq]
        exact ⟨acc, hacc, hkey⟩
      | notExisting =>
        have heq : CacheDB.storageRead db r ak.1 ak.2 = .ok (0, db) := by
          unfold CacheDB.storageRead
          simp only [hacc, hs, hst]
        unfold readStep
        rw [heq]
        exact ⟨acc, hacc, hkey⟩
      | touched =>
        cases hrf : r.storage_ref ak.1 ak.2 with
        | error e =>
          have heq : CacheDB.storageRead db r ak.1 ak.2 = .error e := by
            unfold CacheDB.storageRead
            simp only [hacc, hs, hst, hrf]
          unfold readStep
          rw [heq]
          exact ⟨acc, hacc, hkey⟩
        | ok slot =>
          have hk : ak.2 ≠ key := by
            intro hc
            rw [hc, hkey] at hs
            cases hs
          have heq : CacheDB.storageRead db r ak.1 ak.2
              = .ok (slot, { accounts := ainsert db.accounts ak.1
                               { acc with storage := ainsert acc.storage ak.2 slot } }) := by
            unfold CacheDB.storageRead
            simp only [hacc, hs, hst, hrf]
          unfold readStep
          rw [heq]
          refine ⟨{ acc with storage := ainsert acc.storage ak.2 slot },
            alookup_ainsert_self _ _ _, ?_⟩
          rw [alookup_ainsert_ne _ _ _ _ (fun hc => hk hc.symm)]
          exact hkey
      | none =>
        cases hrf : r.storage_ref ak.1 ak.2 with
        | error e =>
          have heq : CacheDB.storageRead db r ak.1 ak.2 = .error e := by
            unfold CacheDB.storageRead
            simp only [hacc, hs, hst, hrf]
          unfold readStep
          rw [heq]
          exact ⟨acc, hacc, hkey⟩
        | ok slot =>
          have hk : ak.2 ≠ key := by
            intro hc
            rw [hc, hkey] at hs
            cases hs
          have heq : CacheDB.storageRead db r ak.1 ak.2
              = .ok (slot, { accounts := ainsert db.accounts ak.1
                               { acc with storage := ainsert acc.storage ak.2 slot } }) := by
            unfold CacheDB.storageRead
            simp only [hacc, hs, hst, hrf]
          unfold readStep
          rw [heq]
          refine ⟨{ acc with storage := ainsert acc.storage ak.2 slot },
            alookup_ainsert_self _ _ _, ?_⟩
          rw [alookup_ainsert_ne _ _ _ _ (fun hc => hk hc.symm)]
          exact hkey
  · unfold readStep
    cases hrd : CacheDB.storageRead db r ak.1 ak.2 with
    | error e => exact ⟨acc, hacc, hkey⟩
    | ok p =>
      obtain ⟨val, db'⟩ := p
      refine ⟨acc, ?_, hkey⟩
      rw [storageRead_lookup_ne db r ak.1 ak.2 val db' addr
        (fun hc => ha hc.symm) hrd]
      exact hacc

theorem foldReads_preserves_slot (r : Remote) (addr key v : Nat) :
    ∀ (reads : List (Nat × Nat)) (db : CacheDB),
    (∃ acc, alookup db.accounts addr = some acc ∧
      alookup acc.storage key = some v) →
    ∃ acc, alookup (foldReads r db reads).accounts addr = some acc ∧
      alookup acc.storage key = some v := by
  intro reads
  induction reads with
  | nil =>
    intro db hp
    exact hp
  | cons ak rest ih =>
    intro db hp
    unfold foldReads at ih ⊢
    rw [List.foldl_cons]
    exact ih (readStep r db ak) (readStep_preserves_slot r addr key v db ak hp)

/-- C3: if the applied override set names the storage slot (addr, key)
with value v — the override-set and state-diff key lists being free of
duplicates, as the source's HashMaps guarantee — and the account fetch
for addr can succeed (it is cached or the remote answers), then after
any sequence of further storage reads (including lazy fetches of other
keys of the same address) a read of (addr, key) returns exactly the
override value v with the overlay unchanged, regardless of what the
remote holds for that slot: the remote value is never consulted for an
overridden slot. -/
theorem claim_C3 (r : Remote) (ov : StateOverride) (db db' : CacheDB)
    (addr : Nat) (acct : AccountOverride) (sd : List (Nat × Nat)) (key v : Nat)
    (reads : List (Nat × Nat))
    (hov : applyOverrides r ov db = .ok db')
    (hmem : (addr, acct) ∈ ov)
    (hnodup : (ov.map Prod.fst).Nodup)
    (hsd : acct.state_diff = some sd)
    (hkv : (key, v) ∈ sd)
    (hsdnodup : (sd.map Prod.fst).Nodup)
    (hfetch : (∃ acc, alookup db.accounts addr = some acc) ∨
      (∃ oi, r.basic addr = .ok oi)) :
    CacheDB.storageRead (foldReads r db' reads) r addr key
      = .ok (v, foldReads r db' reads) := by
  have hest := applyOverrides_establishes r addr acct sd key v hsd hkv
    hsdnodup ov db db' hov hmem hnodup hfetch
  have hpres := foldReads_preserves_slot r addr key v reads db' hest
  obtain ⟨acc, hacc, hkey⟩ := hpres
  exact storageRead_hit _ r addr key v acc hacc hkey

/-- Witness for C3: applying ovStorage (slot 2 of address 5 set to 9)
over rGood, then lazily fetching slot 3 of the same address, a read of
slot 2 returns 9 — not rGood's remote value 42. -/
theorem claim_C3_witness :
    CacheDB.storageRead (foldReads rGood dbAfterStorage [(5, 3)]) rGood 5 2
      = .ok (9, foldReads rGood dbAfterStorage [(5, 3)]) :=
  claim_C3 rGood ovStorage CacheDB.empty dbAfterStorage 5
    { balance := Option.none, state_diff := some [(2, 9)] } [(2, 9)] 2 9
    [(5, 3)] rfl (by decide) (by decide) rfl (by decide) (by decide)
    (Or.inr ⟨some { balance := 100, nonce := 7, code := [1] }, rfl⟩)

end RevmProxy

namespace RevmProxy

/-! No-op and replay lemmas for override idempotence (C10). -/

theorem insertSwallow_present (r : Remote) (a : Nat) (db : CacheDB)
    (kv : Nat × Nat) (acc : DbAccount)
    (hacc : alookup db.accounts a = some acc) :
    insertSwallow r a db kv
      = { accounts := ainsert db.accounts a
            { acc with storage := ainsert acc.storage kv.1 kv.2 } } := by
  unfold insertSwallow CacheDB.insert_account_storage CacheDB.load_account
  simp only [hacc]

theorem insertSwallow_noop (r : Remote) (a : Nat) (db : CacheDB)
    (kv : Nat × Nat) (acc : DbAccount)
    (hacc : alookup db.accounts a = some acc)
    (hk : alookup acc.storage kv.1 = some kv.2) :
    insertSwallow r a db kv = db := by
  rw [insertSwallow_present r a db kv acc hacc,
    ainsert_lookup_self acc.storage kv.1 kv.2 hk]
  have hrec : ({ acc with storage := acc.storage } : DbAccount) = acc := rfl
  rw [hrec, ainsert_lookup_self db.accounts a acc hacc]

theorem applyStorageDiff_noop (r : Remote) (a : Nat) :
    ∀ (l : List (Nat × Nat)) (db : CacheDB) (acc : DbAccount),
    alookup db.accounts a = some acc →
    (∀ p ∈ l, alookup acc.storage p.1 = some p.2) →
    l.foldl (insertSwallow r a) db = db := by
  intro l
  induction l with
  | nil =>
    intro db acc _ _
    rfl
  | cons kv rest ih =>
    intro db acc hacc hall
    rw [List.foldl_cons,
      insertSwallow_noop r a db kv acc hacc (hall kv (List.mem_cons_self _ _))]
    exact ih db acc hacc (fun p hp => hall p (List.mem_cons_of_mem _ hp))

theorem applyStorageDiff_dead (r : Remote) (a : Nat) (e : String)
    (hb : r.basic a = .error e) :
    ∀ (sd : List (Nat × Nat)) (db : CacheDB),
    alookup db.accounts a = Option.none →
    sd.foldl (insertSwallow r a) db = db := by
  intro sd
  induction sd with
  | nil =>
    intro db _
    rfl
  | cons kv rest ih =>
    intro db habs
    have hnoop : insertSwallow r a db kv = db := by
      unfold insertSwallow CacheDB.insert_account_storage CacheDB.load_account
      simp only [habs, hb]
    rw [List.foldl_cons, hnoop]
    exact ih db habs

theorem storfold_preserves_info (r : Remote) (a : Nat) :
    ∀ (l : List (Nat × Nat)) (db : CacheDB) (acc : DbAccount),
    alookup db.accounts a = some acc →
    ∃ acc', alookup (l.foldl (insertSwallow r a) db).accounts a = some acc' ∧
      acc'.info = acc.info := by
  intro l
  induction l with
  | nil =>
    intro db acc hacc
    exact ⟨acc, hacc, rfl⟩
  | cons kv rest ih =>
    intro db acc hacc
    rw [List.foldl_cons, insertSwallow_present r a db kv acc hacc]
    obtain ⟨acc', h1, h2⟩ := ih _
      { acc with storage := ainsert acc.storage kv.1 kv.2 }
      (alookup_ainsert_self _ _ _)
    exact ⟨acc', h1, h2⟩

theorem applyStorageDiff_preserves_info (r : Remote) (a : Nat)
    (sd : Option (List (Nat × Nat))) (db : CacheDB) (acc : DbAccount)
    (hacc : alookup db.accounts a = some acc) :
    ∃ acc', alookup (applyStorageDiff r db a sd).accounts a = some acc' ∧
      acc'.info = acc.info := by
  cases sd with
  | none => exact ⟨acc, hacc, rfl⟩
  | some l => exact storfold_preserves_info r a l db acc hacc

theorem applyBalance_post_balance (r : Remote) (db : CacheDB) (a bv : Nat)
    (db' : CacheDB) (h : applyBalance r db a (some bv) = .ok db') :
    ∃ acc, alookup db'.accounts a = some acc ∧ acc.info.balance = bv := by
  unfold applyBalance at h
  cases hl : CacheDB.load_account db r a with
  | error e =>
    rw [hl] at h
    cases h
  | ok p =>
    obtain ⟨acc, db₁⟩ := p
    rw [hl] at h
    cases h
    exact ⟨_, alookup_ainsert_self _ _ _, rfl⟩

theorem applyBalance_noop (r : Remote) (db : CacheDB) (a bv : Nat)
    (acc : DbAccount) (hacc : alookup db.accounts a = some acc)
    (hbal : acc.info.balance = bv) :
    applyBalance r db a (some bv) = .ok db := by
  subst hbal
  unfold applyBalance CacheDB.load_account
  simp only [hacc]
  unfold CacheDB.insert_account_info
  simp only [hacc, Option.getD_some]
  have h1 : ({ acc.info with balance := acc.info.balance } : AccountInfo)
      = acc.info := rfl
  rw [h1]
  have h2 : ({ acc with info := acc.info } : DbAccount) = acc := rfl
  rw [h2, ainsert_lookup_self db.accounts a acc hacc]

theorem applyStorageDiff_replay (r : Remote) (a : Nat) (l : List (Nat × Nat))
    (hnd : (l.map Prod.fst).Nodup) (dbB db₂ : CacheDB)
    (hx : alookup db₂.accounts a
      = alookup (l.foldl (insertSwallow r a) dbB).accounts a) :
    l.foldl (insertSwallow r a) db₂ = db₂ := by
  cases l with
  | nil => rfl
  | cons kv rest =>
    cases hB : alookup dbB.accounts a with
    | some accB =>
      have hlive : (∃ acc, alookup dbB.accounts a = some acc) ∨
          (∃ oi, r.basic a = .ok oi) := Or.inl ⟨accB, hB⟩
      obtain ⟨acc₁, hacc₁, _⟩ := applyStorageDiff_establishes r a kv.1 kv.2
        (kv :: rest) dbB hlive
        (by rw [Prod.mk.eta]; exact List.mem_cons_self _ _) hnd
      have hall : ∀ p ∈ kv :: rest, alookup acc₁.storage p.1 = some p.2 := by
        intro p hp
        obtain ⟨acc', hacc', hs⟩ := applyStorageDiff_establishes r a p.1 p.2
          (kv :: rest) dbB hlive (by rw [Prod.mk.eta]; exact hp) hnd
        rw [hacc₁] at hacc'
        cases hacc'
        exact hs
      exact applyStorageDiff_noop r a (kv :: rest) db₂ acc₁
        (hx.trans hacc₁) hall
    | none =>
      cases hbk : r.basic a with
      | error e =>
        have hdead := applyStorageDiff_dead r a e hbk (kv :: rest) dbB hB
        rw [hdead] at hx
        exact applyStorageDiff_dead r a e hbk (kv :: rest) db₂ (hx.trans hB)
      | ok oi =>
        have hlive : (∃ acc, alookup dbB.accounts a = some acc) ∨
            (∃ oi, r.basic a = .ok oi) := Or.inr ⟨oi, hbk⟩
        obtain ⟨acc₁, hacc₁, _⟩ := applyStorageDiff_establishes r a kv.1 kv.2
          (kv :: rest) dbB hlive
          (by rw [Prod.mk.eta]; exact List.mem_cons_self _ _) hnd
        have hall : ∀ p ∈ kv :: rest, alookup acc₁.storage p.1 = some p.2 := by
          intro p hp
          obtain ⟨acc', hacc', hs⟩ := applyStorageDiff_establishes r a p.1 p.2
            (kv :: rest) dbB hlive (by rw [Prod.mk.eta]; exact hp) hnd
          rw [hacc₁] at hacc'
          cases hacc'
          exact hs
        exact applyStorageDiff_noop r a (kv :: rest) db₂ acc₁
          (hx.trans hacc₁) hall

theorem applyAccountOverride_replay (r : Remote) (a : Nat)
    (acct : AccountOverride) (db db₁ db₂ : CacheDB)
    (hsdnd : ∀ l, acct.state_diff = some l → (l.map Prod.fst).Nodup)
    (h : applyAccountOverride r db a acct = .ok db₁)
    (hx : alookup db₂.accounts a = alookup db₁.accounts a) :
    applyAccountOverride r db₂ a acct = .ok db₂ := by
  unfold applyAccountOverride at h ⊢
  cases hbal : applyBalance r db a acct.balance with
  | error e =>
    rw [hbal] at h
    cases h
  | ok dbB =>
    rw [hbal] at h
    cases h
    have hbal₂ : applyBalance r db₂ a acct.balance = .ok db₂ := by
      cases hb : acct.balance with
      | none => rfl
      | some bv =>
        rw [hb] at hbal
        obtain ⟨accB, haccB, hbalB⟩ :=
          applyBalance_post_balance r db a bv dbB hbal
        obtain ⟨acc₁, hacc₁, hinfo⟩ :=
          applyStorageDiff_preserves_info r a acct.state_diff dbB accB haccB
        apply applyBalance_noop r db₂ a bv acc₁ (hx.trans hacc₁)
        rw [hinfo, hbalB]
    rw [hbal₂]
    cases hsd : acct.state_diff with
    | none => rfl
    | some l =>
      rw [hsd] at hx
      exact congrArg Except.ok
        (applyStorageDiff_replay r a l (hsdnd l hsd) dbB db₂ hx)

theorem applyOverrides_replay (r : Remote) :
    ∀ (ov : StateOverride) (db db' : CacheDB),
    (ov.map Prod.fst).Nodup →
    (∀ p ∈ ov, ∀ l, p.2.state_diff = some l → (l.map Prod.fst).Nodup) →
    applyOverrides r ov db = .ok db' →
    applyOverrides r ov db' = .ok db' := by
  intro ov
  induction ov with
  | nil =>
    intro db db' _ _ h
    cases h
    rfl
  | cons p rest ih =>
    intro db db' hnd hsd h
    obtain ⟨a₀, acct₀⟩ := p
    rw [List.map_cons] at hnd
    obtain ⟨h1, h2⟩ := List.nodup_cons.mp hnd
    unfold applyOverrides at h ⊢
    cases hstep : applyAccountOverride r db a₀ acct₀ with
    | error e =>
      rw [hstep] at h
      cases h
    | ok db₁ =>
      rw [hstep] at h
      have hloc : alookup db'.accounts a₀ = alookup db₁.accounts a₀ :=
        applyOverrides_lookup_notmem r a₀ rest db₁ db' h h1
      have hstep' : applyAccountOverride r db' a₀ acct₀ = .ok db' :=
        applyAccountOverride_replay r a₀ acct₀ db db₁ db'
          (fun l hl => hsd (a₀, acct₀) (List.mem_cons_self _ _) l hl)
          hstep hloc
      rw [hstep']
      exact ih db₁ db' h2 (fun p hp => hsd p (List.mem_cons_of_mem _ hp)) h

/-- C10: for a well-formed override set (address keys and per-account
state-diff keys pairwise distinct, as the source's HashMaps guarantee)
and any starting overlay, applying the override set twice produces the
same final overlay state as applying it once: a second application of
the same set over the overlay that one application produced is the
identity, and a failing application fails identically the second
time. -/
theorem claim_C10 (r : Remote) (ov : StateOverride) (db : CacheDB)
    (hwf : WFStateOverride ov) :
    (applyOverrides r ov db).bind (applyOverrides r ov)
      = applyOverrides r ov db := by
  cases h : applyOverrides r ov db with
  | error e => rfl
  | ok db' => exact applyOverrides_replay r ov db db' hwf.1 hwf.2 h

/-- Witness for C10 at the storage override over rGood. -/
theorem claim_C10_witness :
    (applyOverrides rGood ovStorage CacheDB.empty).bind
        (applyOverrides rGood ovStorage)
      = applyOverrides rGood ovStorage CacheDB.empty :=
  claim_C10 rGood ovStorage CacheDB.empty
    ⟨by decide, by
      intro p hp l hl
      have hpe :
          p = (5, { balance := Option.none, state_diff := some [(2, 9)] }) := by
        simpa [ovStorage] using hp
      subst hpe
      cases hl
      decide⟩

end RevmProxy
